import Mathlib

/-!
Shallow embedding of the Background Lifecycle & Scheduling core of the
CocoroCore2 repository (src/core/optimization_scheduler.py,
src/core/session_manager.py, src/core/neo4j_manager.py), together with
theorems settling the specification claims about it.

Python `dict`s are embedded as insertion-ordered association lists
(`List (String × α)`); Python `set`s as duplicate-free `List String`;
`datetime` instants as natural numbers (seconds); the `asyncio.Queue`
as a FIFO `List`.
-/

/-- Insertion-ordered dictionary lookup (Python `dict.get`). -/
def alistLookup {α : Type} : List (String × α) → String → Option α
  | [], _ => none
  | (k, v) :: rest, key => if k = key then some v else alistLookup rest key

/-- Insertion-ordered dictionary update `d[k] = v`: overwrites in place when
the key is present, appends otherwise (Python dicts keep insertion order). -/
def alistSet {α : Type} : List (String × α) → String → α → List (String × α)
  | [], key, v => [(key, v)]
  | (k, w) :: rest, key, v =>
      if k = key then (key, v) :: rest else (k, w) :: alistSet rest key v

/-- Dictionary deletion `del d[k]` (removes every pair with that key). -/
def alistErase {α : Type} (d : List (String × α)) (key : String) : List (String × α) :=
  d.filter (fun p => p.1 ≠ key)

/-- Python `set.add`: insert if absent. -/
def setAdd (s : List String) (x : String) : List String :=
  if x ∈ s then s else s ++ [x]

/-- Python `set.discard`: remove if present. -/
def setDiscard (s : List String) (x : String) : List String :=
  s.filter (fun y => y ≠ x)

/-! ## Task scheduler (src/core/optimization_scheduler.py) -/

/-- `OptimizationTask` dataclass: user, optimization type, priority,
optional scheduled time, creation time (`__post_init__` fills it with now). -/
structure OptimizationTask where
  user_id : String
  optimization_type : String
  priority : Nat := 0
  scheduled_time : Option Nat := none
  created_time : Nat := 0
deriving DecidableEq, Repr

/-- The mutable state of `OptimizationScheduler`.  `active_executions` models
the multiset of currently live `_execute_optimization_task` coroutines (one
entry per execution that has entered the function body and not yet left it);
`running_optimizations` is the scheduler's own `Set[str]` of user ids. -/
structure OptimizationScheduler where
  auto_optimize_interval : Nat
  auto_optimize_threshold : Nat
  max_concurrent_optimizations : Nat
  enable_background_optimization : Bool
  is_running : Bool
  optimization_tasks : List OptimizationTask
  user_memory_counts : List (String × Nat)
  last_optimization_times : List (String × Nat)
  running_optimizations : List String
  active_executions : List String
deriving DecidableEq, Repr

namespace OptimizationScheduler

/-- `OptimizationScheduler.__init__`: not running, empty queue and maps. -/
def init (interval threshold max_concurrent : Nat) (enable : Bool) :
    OptimizationScheduler :=
  { auto_optimize_interval := interval
    auto_optimize_threshold := threshold
    max_concurrent_optimizations := max_concurrent
    enable_background_optimization := enable
    is_running := false
    optimization_tasks := []
    user_memory_counts := []
    last_optimization_times := []
    running_optimizations := []
    active_executions := [] }

/-- `OptimizationScheduler.start`: a no-op when already running or when
background optimization is disabled; otherwise sets `is_running`. -/
def start (s : OptimizationScheduler) : OptimizationScheduler :=
  if s.is_running then s
  else if !s.enable_background_optimization then s
  else { s with is_running := true }

/-- `OptimizationScheduler._schedule_optimization`: skipped when the
scheduler is not running or the user is already in `running_optimizations`;
otherwise puts a new task on the (unbounded) queue. -/
def schedule_optimization (s : OptimizationScheduler) (user_id ty : String)
    (priority : Nat) (now : Nat) : OptimizationScheduler :=
  if !s.is_running then s
  else if user_id ∈ s.running_optimizations then s
  else
    { s with optimization_tasks :=
        s.optimization_tasks ++
          [{ user_id := user_id, optimization_type := ty,
             priority := priority, scheduled_time := none,
             created_time := now }] }

/-- `OptimizationScheduler.notify_memory_added`: returns at once when not
running; otherwise increments the user's memory count and, once the count
reaches `auto_optimize_threshold`, schedules a `threshold_triggered` task
at priority 1. -/
def notify_memory_added (s : OptimizationScheduler) (user_id : String)
    (now : Nat) : OptimizationScheduler :=
  if !s.is_running then s
  else
    let current := (alistLookup s.user_memory_counts user_id).getD 0 + 1
    let s' := { s with user_memory_counts :=
                  alistSet s.user_memory_counts user_id current }
    if s'.auto_optimize_threshold ≤ current then
      schedule_optimization s' user_id "threshold_triggered" 1 now
    else s'

/-- `OptimizationScheduler.force_optimization`: schedules at priority 2. -/
def force_optimization (s : OptimizationScheduler) (user_id ty : String)
    (now : Nat) : OptimizationScheduler :=
  schedule_optimization s user_id ty 2 now

/-- One pass of the `_optimization_worker` loop body in which a task was
obtained from the queue: if the concurrency cap is reached the task is put
back at the tail of the queue; otherwise `_execute_optimization_task` is
spawned for it, whose first statement adds the user to
`running_optimizations` (and the coroutine becomes a live execution). -/
def optimization_worker_step (s : OptimizationScheduler) : OptimizationScheduler :=
  if !s.is_running then s
  else
    match s.optimization_tasks with
    | [] => s
    | t :: rest =>
        if s.max_concurrent_optimizations ≤ s.running_optimizations.length then
          { s with optimization_tasks := rest ++ [t] }
        else
          { s with optimization_tasks := rest
                   running_optimizations := setAdd s.running_optimizations t.user_id
                   active_executions := t.user_id :: s.active_executions }

/-- Outcome of `scheduler_manager.optimize_text_memory` as observed by
`_execute_optimization_task`: a result dict with `success` true, one with
`success` false, or a raised exception (caught and only logged). -/
inductive OptResult
  | success
  | failure
  | raised
deriving DecidableEq, Repr

/-- Completion of one live `_execute_optimization_task` coroutine for
`user_id`: on success the user's memory count is reset to 0 and
`last_optimization_times[user_id]` is set to now; on failure the count is
halved (`max(0, count // 2)`); on a raised exception nothing is updated.
In every case the `finally` block discards the user from
`running_optimizations`, and the coroutine stops being a live execution. -/
def execute_optimization_finish (s : OptimizationScheduler) (user_id : String)
    (r : OptResult) (now : Nat) : OptimizationScheduler :=
  let s' :=
    match r with
    | OptResult.success =>
        { s with user_memory_counts := alistSet s.user_memory_counts user_id 0
                 last_optimization_times :=
                   alistSet s.last_optimization_times user_id now }
    | OptResult.failure =>
        let halved := max 0 ((alistLookup s.user_memory_counts user_id).getD 0 / 2)
        { s with user_memory_counts := alistSet s.user_memory_counts user_id halved }
    | OptResult.raised => s
  { s' with running_optimizations := setDiscard s'.running_optimizations user_id
            active_executions := s'.active_executions.erase user_id }

/-- The `for user_id, last_time in list(...items())` loop of
`_periodic_scheduler`: walk the snapshot of `last_optimization_times` and
schedule a `periodic` task for every entry older than
`2 * auto_optimize_interval`. -/
def periodic_check (now : Nat) : OptimizationScheduler → List (String × Nat) →
    OptimizationScheduler
  | st, [] => st
  | st, p :: rest =>
      periodic_check now
        (if 2 * st.auto_optimize_interval < now - p.2 then
           schedule_optimization st p.1 "periodic" 1 now
         else st) rest

/-- One pass of the `_periodic_scheduler` loop body after its sleep. -/
def periodic_scheduler_tick (s : OptimizationScheduler) (now : Nat) :
    OptimizationScheduler :=
  if !s.is_running then s
  else periodic_check now s s.last_optimization_times

/-- `OptimizationScheduler.reset_user_memory_count`: zero the count when
the user has one. -/
def reset_user_memory_count (s : OptimizationScheduler) (user_id : String) :
    OptimizationScheduler :=
  match alistLookup s.user_memory_counts user_id with
  | none => s
  | some _ => { s with user_memory_counts :=
                  alistSet s.user_memory_counts user_id 0 }

/-- `n` successive `notify_memory_added` calls for the same user. -/
def notifyRepeat (s : OptimizationScheduler) (u : String) (now : Nat) :
    Nat → OptimizationScheduler
  | 0 => s
  | n + 1 => (notifyRepeat s u now n).notify_memory_added u now

/-- Interleaving semantics of the scheduler: any of the entry points, a
worker pass, an execution completion, or a periodic tick may fire at any
time. -/
inductive Step : OptimizationScheduler → OptimizationScheduler → Prop
  | start (s : OptimizationScheduler) : Step s s.start
  | notify (s : OptimizationScheduler) (u : String) (now : Nat) :
      Step s (s.notify_memory_added u now)
  | force (s : OptimizationScheduler) (u ty : String) (now : Nat) :
      Step s (s.force_optimization u ty now)
  | worker (s : OptimizationScheduler) : Step s s.optimization_worker_step
  | finish (s : OptimizationScheduler) (u : String) (r : OptResult) (now : Nat) :
      u ∈ s.active_executions → Step s (s.execute_optimization_finish u r now)
  | periodic (s : OptimizationScheduler) (now : Nat) :
      Step s (s.periodic_scheduler_tick now)
  | reset (s : OptimizationScheduler) (u : String) :
      Step s (s.reset_user_memory_count u)

/-- Reflexive-transitive closure of `Step`. -/
inductive Reachable : OptimizationScheduler → OptimizationScheduler → Prop
  | refl (s : OptimizationScheduler) : Reachable s s
  | tail {s t u : OptimizationScheduler} :
      Reachable s t → Step t u → Reachable s u

end OptimizationScheduler

/-! ## Neo4j process lifecycle manager (src/core/neo4j_manager.py) -/

/-- Configuration entries of `Neo4jManager` relevant to lifecycle. -/
structure Neo4jConfig where
  embedded_enabled : Bool
  startup_timeout : Nat
deriving DecidableEq, Repr

/-- The environment `start` interacts with: existence of the JRE/Neo4j
directories, the port probe, subprocess spawning, and the time-indexed
results of `_test_connection`, `process.poll()` and `shutdown_event`. -/
structure Neo4jEnv where
  env_ok : Bool
  port_available : Bool
  spawn_ok : Bool
  probe : Nat → Bool
  alive : Nat → Bool
  shutdown_requested : Nat → Bool

/-- Mutable state of `Neo4jManager`: the `subprocess.Popen` handle (as an
optional pid), the driver, and the `shutdown_event`. -/
structure Neo4jManager where
  process : Option Nat
  driver_open : Bool
  shutdown_event : Bool
deriving DecidableEq, Repr

/-- Externally visible actions a lifecycle call performs. -/
inductive Neo4jEffect
  | sleep (seconds : Nat)
  | taskkill_java
  | driver_close
deriving DecidableEq, Repr

namespace Neo4jManager

/-- `Neo4jManager.__init__`: no process, no driver, event cleared. -/
def init : Neo4jManager :=
  { process := none, driver_open := false, shutdown_event := false }

/-- `Neo4jManager._stop_process`: waits 2 seconds for buffer flush, then
unconditionally runs `taskkill /F /IM java.exe`, and finally clears the
process handle.  Every exception is caught and logged. -/
def stop_process (s : Neo4jManager) : Neo4jManager × List Neo4jEffect :=
  ({ s with process := none }, [Neo4jEffect.sleep 2, Neo4jEffect.taskkill_java])

/-- `Neo4jManager.stop`: sets the shutdown event, closes the driver when
one is open, then calls `_stop_process`.  It never raises. -/
def stop (s : Neo4jManager) : Neo4jManager × List Neo4jEffect :=
  let s1 := { s with shutdown_event := true }
  let driver_effects := if s1.driver_open then [Neo4jEffect.driver_close] else []
  let s2 := { s1 with driver_open := false }
  let (s3, kill_effects) := stop_process s2
  (s3, driver_effects ++ kill_effects)

/-- `Neo4jManager._wait_for_startup`: from `elapsed` seconds after the
spawn, loop while `elapsed < startup_timeout`: abort on shutdown request
or process death, succeed when `_test_connection` does, otherwise sleep 2
seconds and retry.  Returns the final elapsed time and whether the
connection test succeeded. -/
def wait_for_startup (timeout : Nat) (env : Neo4jEnv) (elapsed : Nat) :
    Nat × Bool :=
  if elapsed < timeout then
    if env.shutdown_requested elapsed then (elapsed, false)
    else if !env.alive elapsed then (elapsed, false)
    else if env.probe elapsed then (elapsed, true)
    else wait_for_startup timeout env (elapsed + 2)
  else (elapsed, false)
termination_by timeout - elapsed
decreasing_by omega

/-- `Neo4jManager.start`: with embedded mode disabled, just probe the
external instance.  Otherwise verify the filesystem prerequisites, check
the port (an occupied port means "connect to the existing instance"),
spawn the process and poll until healthy or until `startup_timeout`;
on timeout stop the spawned process and report failure.  The result is
(success, final state, seconds consumed). -/
def start (cfg : Neo4jConfig) (env : Neo4jEnv) (s : Neo4jManager) :
    Bool × Neo4jManager × Nat :=
  if !cfg.embedded_enabled then (env.probe 0, s, 0)
  else if !env.env_ok then (false, s, 0)
  else if !env.port_available then (env.probe 0, s, 0)
  else if !env.spawn_ok then (false, s, 0)
  else
    let s1 := { s with process := some 1 }
    let w := wait_for_startup cfg.startup_timeout env 0
    if w.2 then (true, s1, w.1)
    else
      let (s2, _) := stop_process s1
      (false, s2, w.1 + 2)

end Neo4jManager

/-! ## Session manager (src/core/session_manager.py) -/

/-- `SessionInfo`: one session record. -/
structure SessionInfo where
  session_id : String
  user_id : String
  created_at : Nat
  last_activity : Nat
  request_count : Nat
  is_active : Bool
deriving DecidableEq, Repr

/-- `SessionInfo.update_activity`: stamp now and bump the request count. -/
def SessionInfo.update_activity (s : SessionInfo) (now : Nat) : SessionInfo :=
  { s with last_activity := now, request_count := s.request_count + 1 }

/-- `SessionInfo.is_expired`: `now > last_activity + timeout_seconds`. -/
def SessionInfo.is_expired (s : SessionInfo) (timeout_seconds now : Nat) : Bool :=
  s.last_activity + timeout_seconds < now

/-- Mutable state of `SessionManager`: the session dict and the per-user
reverse index of session-id sets. -/
structure SessionManager where
  timeout_seconds : Nat
  max_sessions : Nat
  cleanup_interval_seconds : Nat
  sessions : List (String × SessionInfo)
  user_sessions : List (String × List String)
deriving DecidableEq, Repr

/-- Result dict of `SessionManager.get_session_statistics`. -/
structure SessionStatistics where
  active_sessions : Nat
  total_users : Nat
  total_requests : Nat
  expired_sessions : Nat
  max_sessions : Nat
  timeout_seconds : Nat
deriving DecidableEq, Repr

namespace SessionManager

/-- `SessionManager.__init__`. -/
def init (timeout_seconds max_sessions cleanup_interval_seconds : Nat) :
    SessionManager :=
  { timeout_seconds := timeout_seconds
    max_sessions := max_sessions
    cleanup_interval_seconds := cleanup_interval_seconds
    sessions := []
    user_sessions := [] }

/-- `SessionManager.remove_session`: delete the record and drop the id from
its owner's set, removing the owner's entry when the set becomes empty. -/
def remove_session (st : SessionManager) (session_id : String) :
    SessionManager × Bool :=
  match alistLookup st.sessions session_id with
  | none => (st, false)
  | some session =>
      let sessions' := alistErase st.sessions session_id
      let user_sessions' :=
        match alistLookup st.user_sessions session.user_id with
        | none => st.user_sessions
        | some ids =>
            let ids' := setDiscard ids session_id
            if ids' = [] then alistErase st.user_sessions session.user_id
            else alistSet st.user_sessions session.user_id ids'
      ({ st with sessions := sessions', user_sessions := user_sessions' }, true)

/-- `min(self.sessions.values(), key=...)`: the first record with the
globally smallest `last_activity` in iteration order. -/
def oldestSession : List (String × SessionInfo) → Option SessionInfo
  | [] => none
  | (_, s) :: rest =>
      match oldestSession rest with
      | none => some s
      | some t => if t.last_activity < s.last_activity then some t else some s

/-- `SessionManager._cleanup_oldest_sessions`: evict the single oldest
record (no-op on an empty registry). -/
def cleanup_oldest_sessions (st : SessionManager) : SessionManager :=
  match oldestSession st.sessions with
  | none => st
  | some oldest => (remove_session st oldest.session_id).1

/-- Tail of `SessionManager.create_session`: build the fresh record, insert
it, and register the id under its owner (creating the owner entry first
when absent). -/
def insert_new_session (st : SessionManager) (session_id user_id : String)
    (now : Nat) : SessionManager × SessionInfo :=
  let session : SessionInfo :=
    { session_id := session_id, user_id := user_id, created_at := now,
      last_activity := now, request_count := 0, is_active := true }
  let ids := (alistLookup st.user_sessions user_id).getD []
  ({ st with sessions := alistSet st.sessions session_id session
             user_sessions := alistSet st.user_sessions user_id (setAdd ids session_id) },
   session)

/-- `SessionManager.create_session`: remove a pre-existing record with the
same id, evict the oldest record when at capacity, then insert the new
record. -/
def create_session (st : SessionManager) (session_id user_id : String)
    (now : Nat) : SessionManager × SessionInfo :=
  let st1 := if (alistLookup st.sessions session_id).isSome
             then (remove_session st session_id).1 else st
  let st2 := if st1.max_sessions ≤ st1.sessions.length
             then cleanup_oldest_sessions st1 else st1
  insert_new_session st2 session_id user_id now

/-- `SessionManager.get_session`: lazy expiry — an expired record is
removed and reported as absent. -/
def get_session (st : SessionManager) (session_id : String) (now : Nat) :
    SessionManager × Option SessionInfo :=
  match alistLookup st.sessions session_id with
  | none => (st, none)
  | some session =>
      if session.is_expired st.timeout_seconds now then
        ((remove_session st session_id).1, none)
      else (st, some session)

/-- `SessionManager.update_session_activity`: touch the record found by
`get_session`, if any. -/
def update_session_activity (st : SessionManager) (session_id : String)
    (now : Nat) : SessionManager × Bool :=
  let r := get_session st session_id now
  match r.2 with
  | none => (r.1, false)
  | some session =>
      ({ r.1 with sessions :=
           alistSet r.1.sessions session_id (session.update_activity now) },
       true)

/-- `SessionManager.ensure_session`: create the record when `get_session`
found none, otherwise touch it. -/
def ensure_session (st : SessionManager) (session_id user_id : String)
    (now : Nat) : SessionManager × SessionInfo :=
  let r := get_session st session_id now
  match r.2 with
  | none => create_session r.1 session_id user_id now
  | some session =>
      let session' := session.update_activity now
      ({ r.1 with sessions := alistSet r.1.sessions session_id session' },
       session')

/-- `SessionManager._cleanup_expired_sessions`: collect the expired ids,
then remove each one. -/
def cleanup_expired_sessions (st : SessionManager) (now : Nat) : SessionManager :=
  let expired := (st.sessions.filter
      (fun p => p.2.is_expired st.timeout_seconds now)).map Prod.fst
  expired.foldl (fun s sid => (remove_session s sid).1) st

/-- `SessionManager.get_session_statistics`. -/
def get_session_statistics (st : SessionManager) (now : Nat) : SessionStatistics :=
  { active_sessions := st.sessions.length
    total_users := st.user_sessions.length
    total_requests := (st.sessions.map (fun p => p.2.request_count)).sum
    expired_sessions := (st.sessions.filter
        (fun p => p.2.is_expired st.timeout_seconds now)).length
    max_sessions := st.max_sessions
    timeout_seconds := st.timeout_seconds }

/-- The two-way index invariant of the registry: session keys are unique,
owner keys are unique, every record's id is registered under its owner,
and every owner entry is a non-empty duplicate-free set whose members are
exactly ids of records owned by that owner. -/
def Inv (st : SessionManager) : Prop :=
  (st.sessions.map Prod.fst).Nodup ∧
  (st.user_sessions.map Prod.fst).Nodup ∧
  (∀ p ∈ st.sessions, p.1 ∈ (alistLookup st.user_sessions p.2.user_id).getD []) ∧
  (∀ q ∈ st.user_sessions, q.2 ≠ [] ∧ q.2.Nodup ∧
      ∀ sid ∈ q.2, (alistLookup st.sessions sid).map SessionInfo.user_id = some q.1)

instance (st : SessionManager) : Decidable st.Inv := by
  unfold Inv
  infer_instance

end SessionManager


/-! ## Concrete scenario states -/

/-- A freshly constructed scheduler with `auto_optimize_threshold = 2`,
`max_concurrent_optimizations = 3`, background optimization enabled. -/
def schedInit : OptimizationScheduler := OptimizationScheduler.init 3600 2 3 true

/-- `schedInit` after `start()`. -/
def schedRunning : OptimizationScheduler := schedInit.start

/-- `schedRunning` after three `notify_memory_added("alice")` calls. -/
def schedNotified3 : OptimizationScheduler :=
  ((schedRunning.notify_memory_added "alice" 0).notify_memory_added "alice"
      0).notify_memory_added "alice" 0

/-- `schedNotified3` after the worker dequeued and spawned both queued
tasks. -/
def schedTwoLive : OptimizationScheduler :=
  schedNotified3.optimization_worker_step.optimization_worker_step

/-- A running scheduler whose only recorded last-success entry is
`("bob", 0)`. -/
def schedWithBobTime : OptimizationScheduler :=
  { schedRunning with last_optimization_times := [("bob", 0)] }

/-- A running scheduler with an optimization in flight for `"carol"`. -/
def schedCarolRunning : OptimizationScheduler :=
  { schedRunning with running_optimizations := ["carol"] }

/-- The session registry of the C8 scenario: `timeout=300`,
`cleanup_interval=30`, one session `"s1"` created at t=0. -/
def sessionScenario : SessionManager :=
  ((SessionManager.init 300 1000 30).create_session "s1" "user1" 0).1

/-- A start environment whose health probe never succeeds: prerequisites
present, port free, spawn succeeds, the process stays alive, no shutdown
request. -/
def neo4jNeverUp : Neo4jEnv :=
  { env_ok := true, port_available := true, spawn_ok := true,
    probe := fun _ => false, alive := fun _ => true,
    shutdown_requested := fun _ => false }

/-! ### Dictionary and set lemmas -/

theorem alistLookup_eq_none {α : Type} (d : List (String × α)) (k : String) :
    alistLookup d k = none ↔ k ∉ d.map Prod.fst := by
  induction d with
  | nil => simp [alistLookup]
  | cons p rest ih =>
      obtain ⟨k', v⟩ := p
      by_cases h : k' = k
      · subst h; simp [alistLookup]
      · have h' : ¬ k = k' := fun he => h he.symm
        simp [alistLookup, h, h', ih]

theorem alistLookup_mem {α : Type} {d : List (String × α)} {k : String} {v : α}
    (h : alistLookup d k = some v) : (k, v) ∈ d := by
  induction d with
  | nil => simp [alistLookup] at h
  | cons p rest ih =>
      obtain ⟨k', w⟩ := p
      by_cases hk : k' = k
      · subst hk
        have h' : w = v := by simpa [alistLookup] using h
        subst h'
        exact List.mem_cons_self _ _
      · simp only [alistLookup, if_neg hk] at h
        exact List.mem_cons_of_mem _ (ih h)

theorem mem_alistLookup {α : Type} {d : List (String × α)} {k : String} {v : α}
    (hnd : (d.map Prod.fst).Nodup) (h : (k, v) ∈ d) : alistLookup d k = some v := by
  induction d with
  | nil => simp at h
  | cons p rest ih =>
      obtain ⟨k', w⟩ := p
      simp only [List.map_cons, List.nodup_cons] at hnd
      rcases List.mem_cons.mp h with heq | hmem
      · cases heq
        simp [alistLookup]
      · have hk : k' ≠ k := by
          intro he
          apply hnd.1
          rw [he]
          exact List.mem_map.mpr ⟨(k, v), hmem, rfl⟩
        simp only [alistLookup, if_neg hk]
        exact ih hnd.2 hmem

theorem alistErase_lookup {α : Type} (d : List (String × α)) (k k' : String) :
    alistLookup (alistErase d k) k' =
      if k' = k then none else alistLookup d k' := by
  induction d with
  | nil => simp [alistErase, alistLookup]
  | cons p rest ih =>
      obtain ⟨k₀, v⟩ := p
      by_cases h0 : k₀ = k
      · subst h0
        by_cases h1 : k' = k₀
        · subst h1; simpa [alistErase, alistLookup] using ih
        · have h1' : ¬ k₀ = k' := fun he => h1 he.symm
          simpa [alistErase, alistLookup, h1, h1'] using ih
      · by_cases h1 : k₀ = k'
        · subst h1
          have h0' : ¬ k₀ = k := h0
          simp [alistErase, alistLookup, h0', fun he : k₀ = k => h0 he]
        · simpa [alistErase, alistLookup, h0, h1] using ih

theorem mem_alistErase {α : Type} {p : String × α} {d : List (String × α)}
    {k : String} : p ∈ alistErase d k ↔ p ∈ d ∧ p.1 ≠ k := by
  simp [alistErase, List.mem_filter]

theorem alistErase_keys_sublist {α : Type} (d : List (String × α)) (k : String) :
    List.Sublist ((alistErase d k).map Prod.fst) (d.map Prod.fst) :=
  List.Sublist.map Prod.fst (List.filter_sublist d)

theorem alistErase_keys_nodup {α : Type} {d : List (String × α)} (k : String)
    (h : (d.map Prod.fst).Nodup) : ((alistErase d k).map Prod.fst).Nodup :=
  h.sublist (alistErase_keys_sublist d k)

theorem alistSet_lookup {α : Type} (d : List (String × α)) (k k' : String) (v : α) :
    alistLookup (alistSet d k v) k' =
      if k' = k then some v else alistLookup d k' := by
  induction d with
  | nil =>
      by_cases h : k' = k
      · subst h; simp [alistSet, alistLookup]
      · have h' : ¬ k = k' := fun he => h he.symm
        simp [alistSet, alistLookup, h, h']
  | cons p rest ih =>
      obtain ⟨k₀, w⟩ := p
      by_cases h0 : k₀ = k
      · subst h0
        by_cases h1 : k' = k₀
        · subst h1; simp [alistSet, alistLookup]
        · have h1' : ¬ k₀ = k' := fun he => h1 he.symm
          simp [alistSet, alistLookup, h1, h1']
      · by_cases h1 : k' = k₀
        · subst h1
          have h0' : ¬ k' = k := fun he => h0 (he ▸ rfl)
          simp [alistSet, alistLookup, h0, h0']
        · have h1' : ¬ k₀ = k' := fun he => h1 he.symm
          simpa [alistSet, alistLookup, h0, h1, h1'] using ih

theorem alistSet_keys {α : Type} (d : List (String × α)) (k : String) (v : α) :
    (alistSet d k v).map Prod.fst =
      if k ∈ d.map Prod.fst then d.map Prod.fst else d.map Prod.fst ++ [k] := by
  induction d with
  | nil => simp [alistSet]
  | cons p rest ih =>
      obtain ⟨k₀, w⟩ := p
      by_cases h0 : k₀ = k
      · subst h0; simp [alistSet]
      · have h0' : ¬ k = k₀ := fun he => h0 he.symm
        simp only [alistSet, if_neg h0, List.map_cons, ih, List.mem_cons]
        by_cases h1 : k ∈ rest.map Prod.fst
        · simp [h1, h0']
        · simp [h1, h0']

theorem alistSet_keys_nodup {α : Type} {d : List (String × α)} {k : String}
    {v : α} (h : (d.map Prod.fst).Nodup) :
    ((alistSet d k v).map Prod.fst).Nodup := by
  rw [alistSet_keys]
  by_cases hk : k ∈ d.map Prod.fst
  · simpa [hk] using h
  · have hdisj : List.Disjoint (d.map Prod.fst) [k] := by
      intro a ha hk'
      simp only [List.mem_singleton] at hk'
      subst hk'
      exact hk ha
    simpa [hk] using List.Nodup.append h (List.nodup_singleton k) hdisj

theorem mem_alistSet {α : Type} {p : String × α} {d : List (String × α)}
    {k : String} {v : α} (hnd : (d.map Prod.fst).Nodup) :
    p ∈ alistSet d k v ↔ p = (k, v) ∨ (p ∈ d ∧ p.1 ≠ k) := by
  induction d with
  | nil => simp [alistSet]
  | cons q rest ih =>
      obtain ⟨k₀, w⟩ := q
      simp only [List.map_cons, List.nodup_cons] at hnd
      by_cases h0 : k₀ = k
      · subst h0
        have hrest : ∀ r ∈ rest, (r : String × α).1 ≠ k₀ := by
          intro r hr he
          apply hnd.1
          rw [← he]
          exact List.mem_map.mpr ⟨r, hr, rfl⟩
        constructor
        · intro hp
          rcases List.mem_cons.mp (by simpa [alistSet] using hp) with he | hm
          · exact Or.inl he
          · exact Or.inr ⟨List.mem_cons_of_mem _ hm, hrest p hm⟩
        · intro hp
          rcases hp with he | ⟨hm, hne⟩
          · simp [alistSet, he]
          · rcases List.mem_cons.mp hm with he' | hm'
            · exact absurd (by simp [he']) hne
            · simp [alistSet, List.mem_cons_of_mem _ hm']
      · constructor
        · intro hp
          rcases List.mem_cons.mp (by simpa [alistSet, h0] using hp) with he | hm
          · exact Or.inr ⟨by simp [he], by simp [he, h0]⟩
          · rcases (ih hnd.2).mp hm with he' | ⟨hm', hne⟩
            · exact Or.inl he'
            · exact Or.inr ⟨List.mem_cons_of_mem _ hm', hne⟩
        · intro hp
          rcases hp with he | ⟨hm, hne⟩
          · subst he
            simp only [alistSet, if_neg h0]
            exact List.mem_cons_of_mem _ ((ih hnd.2).mpr (Or.inl rfl))
          · rcases List.mem_cons.mp hm with he' | hm'
            · simp [alistSet, h0, he']
            · simp only [alistSet, if_neg h0]
              exact List.mem_cons_of_mem _
                ((ih hnd.2).mpr (Or.inr ⟨hm', hne⟩))

theorem mem_setAdd {s : List String} {x y : String} :
    y ∈ setAdd s x ↔ y = x ∨ y ∈ s := by
  unfold setAdd
  by_cases h : x ∈ s
  · simp only [if_pos h]
    constructor
    · exact Or.inr
    · rintro (rfl | hy)
      · exact h
      · exact hy
  · simp [if_neg h, or_comm]

theorem setAdd_ne_nil (s : List String) (x : String) : setAdd s x ≠ [] := by
  unfold setAdd
  by_cases h : x ∈ s
  · simp only [if_pos h]
    intro he; subst he; simp at h
  · simp [if_neg h]

theorem setAdd_nodup {s : List String} {x : String} (h : s.Nodup) :
    (setAdd s x).Nodup := by
  unfold setAdd
  by_cases hx : x ∈ s
  · simpa [hx] using h
  · have hdisj : List.Disjoint s [x] := by
      intro a ha hx'
      simp only [List.mem_singleton] at hx'
      subst hx'
      exact hx ha
    simpa [hx] using List.Nodup.append h (List.nodup_singleton x) hdisj

theorem mem_setDiscard {s : List String} {x y : String} :
    y ∈ setDiscard s x ↔ y ∈ s ∧ y ≠ x := by
  simp [setDiscard, List.mem_filter]

theorem setDiscard_nodup {s : List String} (x : String) (h : s.Nodup) :
    (setDiscard s x).Nodup :=
  h.sublist (List.filter_sublist s)

/-! ### Scheduler lemmas -/

theorem schedule_optimization_running_noop (s : OptimizationScheduler)
    {u : String} (ty : String) (p now : Nat) (h : u ∈ s.running_optimizations) :
    s.schedule_optimization u ty p now = s := by
  unfold OptimizationScheduler.schedule_optimization
  by_cases h1 : s.is_running <;> simp [h1, h]

theorem schedule_optimization_frame (s : OptimizationScheduler)
    (u ty : String) (p now : Nat) :
    (s.schedule_optimization u ty p now).is_running = s.is_running ∧
    (s.schedule_optimization u ty p now).running_optimizations
      = s.running_optimizations ∧
    (s.schedule_optimization u ty p now).auto_optimize_interval
      = s.auto_optimize_interval := by
  unfold OptimizationScheduler.schedule_optimization
  split
  · exact ⟨rfl, rfl, rfl⟩
  · split
    · exact ⟨rfl, rfl, rfl⟩
    · exact ⟨rfl, rfl, rfl⟩

theorem schedule_optimization_queue_mono (s : OptimizationScheduler)
    (u ty : String) (p now : Nat) {t : OptimizationTask}
    (ht : t ∈ s.optimization_tasks) :
    t ∈ (s.schedule_optimization u ty p now).optimization_tasks := by
  unfold OptimizationScheduler.schedule_optimization
  split
  · exact ht
  · split
    · exact ht
    · exact List.mem_append_left _ ht

theorem schedule_optimization_enqueues (s : OptimizationScheduler)
    (u ty : String) (p now : Nat) (hrun : s.is_running = true)
    (hnr : u ∉ s.running_optimizations) :
    (s.schedule_optimization u ty p now).optimization_tasks
      = s.optimization_tasks ++
        [{ user_id := u, optimization_type := ty, priority := p,
           scheduled_time := none, created_time := now }] := by
  unfold OptimizationScheduler.schedule_optimization
  simp [hrun, hnr]

theorem notify_running_queue_unchanged (t : OptimizationScheduler)
    (u : String) (now : Nat) (h : u ∈ t.running_optimizations) :
    (t.notify_memory_added u now).optimization_tasks = t.optimization_tasks := by
  unfold OptimizationScheduler.notify_memory_added
  by_cases h1 : t.is_running
  · simp only [h1, Bool.not_true, Bool.false_eq_true, if_false]
    split
    · have hs : ∀ (s' : OptimizationScheduler), u ∈ s'.running_optimizations →
          (s'.schedule_optimization u "threshold_triggered" 1 now).optimization_tasks
            = s'.optimization_tasks := by
        intro s' h'
        rw [schedule_optimization_running_noop s' "threshold_triggered" 1 now h']
      refine hs _ ?_
      exact h
    · rfl
  · simp [h1]

theorem notify_below_threshold (t : OptimizationScheduler) (u : String)
    (now n : Nat) (hr : t.is_running = true)
    (hc : (alistLookup t.user_memory_counts u).getD 0 = n)
    (hk : n + 1 < t.auto_optimize_threshold) :
    (t.notify_memory_added u now).optimization_tasks = t.optimization_tasks ∧
    (t.notify_memory_added u now).is_running = true ∧
    (t.notify_memory_added u now).running_optimizations
      = t.running_optimizations ∧
    (t.notify_memory_added u now).auto_optimize_threshold
      = t.auto_optimize_threshold ∧
    (alistLookup (t.notify_memory_added u now).user_memory_counts u).getD 0
      = n + 1 := by
  unfold OptimizationScheduler.notify_memory_added
  simp only [hr, Bool.not_true, Bool.false_eq_true, if_false, hc]
  have hnle : ¬ t.auto_optimize_threshold ≤ n + 1 := by omega
  simp [hnle, alistSet_lookup]

theorem notify_reaches_threshold (t : OptimizationScheduler) (u : String)
    (now : Nat) (hr : t.is_running = true)
    (hth : t.auto_optimize_threshold
      ≤ (alistLookup t.user_memory_counts u).getD 0 + 1)
    (hnr : u ∉ t.running_optimizations) :
    (t.notify_memory_added u now).optimization_tasks
      = t.optimization_tasks ++
        [{ user_id := u, optimization_type := "threshold_triggered",
           priority := 1, scheduled_time := none, created_time := now }] := by
  unfold OptimizationScheduler.notify_memory_added
  simp only [hr, Bool.not_true, Bool.false_eq_true, if_false]
  rw [if_pos hth]
  refine schedule_optimization_enqueues _ u "threshold_triggered" 1 now ?_ ?_
  · rfl
  · exact hnr

theorem notifyRepeat_below (s : OptimizationScheduler) (u : String) (now : Nat)
    (hrun : s.is_running = true)
    (hcnt : (alistLookup s.user_memory_counts u).getD 0 = 0) :
    ∀ k, k < s.auto_optimize_threshold →
      (OptimizationScheduler.notifyRepeat s u now k).optimization_tasks
        = s.optimization_tasks ∧
      (OptimizationScheduler.notifyRepeat s u now k).is_running = true ∧
      (OptimizationScheduler.notifyRepeat s u now k).running_optimizations
        = s.running_optimizations ∧
      (OptimizationScheduler.notifyRepeat s u now k).auto_optimize_threshold
        = s.auto_optimize_threshold ∧
      (alistLookup (OptimizationScheduler.notifyRepeat s u now
          k).user_memory_counts u).getD 0 = k := by
  intro k
  induction k with
  | zero => intro _; exact ⟨rfl, hrun, rfl, rfl, hcnt⟩
  | succ n ih =>
      intro hk
      obtain ⟨hq, hr, hro, hth, hc⟩ := ih (Nat.lt_of_succ_lt hk)
      have hstep := notify_below_threshold
        (OptimizationScheduler.notifyRepeat s u now n) u now n hr hc
        (by rw [hth]; exact hk)
      refine ⟨?_, hstep.2.1, ?_, ?_, hstep.2.2.2.2⟩
      · exact hstep.1.trans hq
      · exact hstep.2.2.1.trans hro
      · exact hstep.2.2.2.1.trans hth

/-- Claim C7: when a task execution completes with a failure result, the
subject's unprocessed-write counter is halved (integer floor division by
two), not reset to 0 and not left unchanged; the completion is a total
state update, so nothing is raised to the caller that triggered the
notification. -/
theorem C7_failure_halves_counter (s : OptimizationScheduler) (u : String)
    (now : Nat) :
    (alistLookup (s.execute_optimization_finish u
        OptimizationScheduler.OptResult.failure now).user_memory_counts u).getD 0
      = (alistLookup s.user_memory_counts u).getD 0 / 2 := by
  unfold OptimizationScheduler.execute_optimization_finish
  simp [alistSet_lookup]

/-- Claim C9: `notify_memory_added` called while the scheduler is not
running returns immediately and leaves the whole state (in particular the
counter dict and the task queue) unchanged; and `start()` with background
optimization disabled never sets `is_running`. -/
theorem C9_notify_noop_when_stopped (s t : OptimizationScheduler) (u : String)
    (now : Nat) (h : s.is_running = false)
    (ht : t.enable_background_optimization = false) :
    s.notify_memory_added u now = s ∧ t.start.is_running = t.is_running := by
  constructor
  · unfold OptimizationScheduler.notify_memory_added
    simp [h]
  · unfold OptimizationScheduler.start
    by_cases hr : t.is_running
    · simp [hr]
    · simp [hr, ht]

/-- Witness for C9 at a concrete stopped scheduler and a concrete
disabled scheduler. -/
theorem C9_witness :
    schedInit.notify_memory_added "alice" 0 = schedInit ∧
    (OptimizationScheduler.init 3600 2 3 false).start.is_running
      = (OptimizationScheduler.init 3600 2 3 false).is_running :=
  C9_notify_noop_when_stopped schedInit (OptimizationScheduler.init 3600 2 3 false)
    "alice" 0 rfl rfl

/-- Counterexample to claim C1 as stated: from a freshly constructed
scheduler, a reachable interleaving (start; three notifies for "alice";
two worker passes) puts two concurrent `_execute_optimization_task`
executions for the same user `"alice"` in flight. -/
theorem C1_counterexample :
    OptimizationScheduler.Reachable schedInit schedTwoLive ∧
    2 ≤ schedTwoLive.active_executions.count "alice" := by
  constructor
  · exact OptimizationScheduler.Reachable.tail
      (OptimizationScheduler.Reachable.tail
        (OptimizationScheduler.Reachable.tail
          (OptimizationScheduler.Reachable.tail
            (OptimizationScheduler.Reachable.tail
              (OptimizationScheduler.Reachable.tail
                (OptimizationScheduler.Reachable.refl schedInit)
                (OptimizationScheduler.Step.start schedInit))
              (OptimizationScheduler.Step.notify schedRunning "alice" 0))
            (OptimizationScheduler.Step.notify _ "alice" 0))
          (OptimizationScheduler.Step.notify _ "alice" 0))
        (OptimizationScheduler.Step.worker schedNotified3))
      (OptimizationScheduler.Step.worker _)
  · decide

/-- Claim C1 amended: per-subject duplicate suppression is enforced only at
enqueue time — `notify_memory_added`, `force_optimization` and
`_schedule_optimization` never enqueue a task for a subject currently in
`running_optimizations` — while the worker performs no per-subject check
at dequeue, so two tasks for the same subject that were both enqueued
before either began may run concurrently. -/
theorem C1_amended_enqueue_time_suppression (s : OptimizationScheduler)
    (u ty : String) (p now : Nat) (h : u ∈ s.running_optimizations) :
    (s.notify_memory_added u now).optimization_tasks = s.optimization_tasks ∧
    (s.force_optimization u ty now).optimization_tasks = s.optimization_tasks ∧
    (s.schedule_optimization u ty p now).optimization_tasks
      = s.optimization_tasks := by
  have hforce : ∀ (s' : OptimizationScheduler), u ∈ s'.running_optimizations →
      ∀ ty' p' now', (s'.schedule_optimization u ty' p' now').optimization_tasks
        = s'.optimization_tasks := by
    intro s' h' ty' p' now'
    rw [schedule_optimization_running_noop s' ty' p' now' h']
  exact ⟨notify_running_queue_unchanged s u now h, hforce s h ty 2 now,
    hforce s h ty p now⟩

/-- Witness for the amended C1 at a scheduler with `"carol"` in flight. -/
theorem C1_amended_witness :
    (schedCarolRunning.notify_memory_added "carol" 7).optimization_tasks
      = schedCarolRunning.optimization_tasks ∧
    (schedCarolRunning.force_optimization "carol" "full" 7).optimization_tasks
      = schedCarolRunning.optimization_tasks ∧
    (schedCarolRunning.schedule_optimization "carol" "full" 2 7).optimization_tasks
      = schedCarolRunning.optimization_tasks :=
  C1_amended_enqueue_time_suppression schedCarolRunning "carol" "full" 2 7
    (by decide)

/-- Counterexample to claim C2 as stated: with `auto_optimize_threshold = 2`,
two notifies enqueue exactly one `threshold_triggered` task, but a third
notify while that task is still queued (nothing is running) enqueues a
second one. -/
theorem C2_counterexample :
    ((schedRunning.notify_memory_added "alice" 0).notify_memory_added "alice"
        0).optimization_tasks.length = 1 ∧
    schedNotified3.running_optimizations = [] ∧
    schedNotified3.optimization_tasks.length = 2 := by
  decide

/-- Counterexample to claim C3 as stated: `"alice"` is a known subject
(positive counter), has never completed an optimization (no entry in
`last_optimization_times`), nothing is in flight, yet a periodic tick far
beyond `2 × auto_optimize_interval` enqueues no task at all. -/
theorem C3_counterexample :
    (alistLookup (schedRunning.notify_memory_added "alice" 0).user_memory_counts
        "alice").getD 0 = 1 ∧
    alistLookup (schedRunning.notify_memory_added "alice" 0).last_optimization_times
        "alice" = none ∧
    (schedRunning.notify_memory_added "alice" 0).running_optimizations = [] ∧
    ((schedRunning.notify_memory_added "alice" 0).periodic_scheduler_tick
        1000000).optimization_tasks = [] := by
  decide

/-- Counterexample to claim C5 as stated: `stop()` on a manager on which
nothing was ever started is not a no-op — it changes the state (sets the
shutdown event) and signals processes (issues `taskkill /F /IM java.exe`). -/
theorem C5_counterexample :
    Neo4jManager.init.stop.1 ≠ Neo4jManager.init ∧
    Neo4jEffect.taskkill_java ∈ Neo4jManager.init.stop.2 := by
  decide

/-- Claim C5 amended: `stop()` never errors and is idempotent on the
manager state — a second call leaves the state exactly where the first
left it, and every call leaves the process handle cleared — but it is not
a no-op when already stopped: it sets the shutdown event and
unconditionally performs the grace sleep and the coarse kill-by-name. -/
theorem C5_amended_stop_idempotent_on_state (s : Neo4jManager) :
    s.stop.1.stop.1 = s.stop.1 ∧
    s.stop.1.process = none ∧
    Neo4jEffect.taskkill_java ∈ s.stop.2 := by
  unfold Neo4jManager.stop Neo4jManager.stop_process
  simp

/-- Claim C8: with `timeout=300` and `cleanup_interval=30`, a session
`"s1"` created at t=0 with no later activity: the registry holds one
active session; `get_session("s1")` at t=301 returns none (and the lazy
path leaves the active count at 0); equally, the background sweep tick
alone removes it, dropping the active count from 1 to 0. -/
theorem C8_expiry_scenario :
    (sessionScenario.get_session_statistics 0).active_sessions = 1 ∧
    (sessionScenario.get_session "s1" 301).2 = none ∧
    ((sessionScenario.get_session "s1" 301).1.get_session_statistics
        301).active_sessions = 0 ∧
    ((sessionScenario.cleanup_expired_sessions 330).get_session_statistics
        330).active_sessions = 0 := by
  decide

/-- Claim C2 amended: starting from a running scheduler in which the
subject has counter 0, exactly `auto_optimize_threshold` notify calls
with no intervening completion enqueue exactly one `threshold_triggered`
task at priority 1; additional notify calls are suppressed only while a
task for the subject is Running — while the task is merely queued, the
in-flight check does not apply and further notifies can enqueue again. -/
theorem C2_amended_exactly_one_task (s t : OptimizationScheduler)
    (u : String) (now : Nat)
    (hrun : s.is_running = true)
    (hcnt : (alistLookup s.user_memory_counts u).getD 0 = 0)
    (hnr : u ∉ s.running_optimizations)
    (hpos : 1 ≤ s.auto_optimize_threshold)
    (hrt : u ∈ t.running_optimizations) :
    (OptimizationScheduler.notifyRepeat s u now
        s.auto_optimize_threshold).optimization_tasks
      = s.optimization_tasks ++
        [{ user_id := u, optimization_type := "threshold_triggered",
           priority := 1, scheduled_time := none, created_time := now }] ∧
    (t.notify_memory_added u now).optimization_tasks = t.optimization_tasks := by
  refine ⟨?_, notify_running_queue_unchanged t u now hrt⟩
  obtain ⟨m, hm⟩ : ∃ m, s.auto_optimize_threshold = m + 1 :=
    ⟨s.auto_optimize_threshold - 1, by omega⟩
  obtain ⟨hq, hr, hro, hth, hc⟩ :=
    notifyRepeat_below s u now hrun hcnt m (by omega)
  have hfin := notify_reaches_threshold
    (OptimizationScheduler.notifyRepeat s u now m) u now hr
    (by rw [hth, hc, hm]) (by rw [hro]; exact hnr)
  rw [hm]
  show ((OptimizationScheduler.notifyRepeat s u now m).notify_memory_added
      u now).optimization_tasks = _
  rw [hfin, hq]

/-- Witness for the amended C2: with threshold 2, two notifies for
`"carol"` starting from counter 0 enqueue exactly one task, and a notify
for `"carol"` while `"carol"` is in flight leaves the queue unchanged. -/
theorem C2_amended_witness :
    (OptimizationScheduler.notifyRepeat schedRunning "carol" 0
        schedRunning.auto_optimize_threshold).optimization_tasks
      = schedRunning.optimization_tasks ++
        [{ user_id := "carol", optimization_type := "threshold_triggered",
           priority := 1, scheduled_time := none, created_time := 0 }] ∧
    (schedCarolRunning.notify_memory_added "carol" 0).optimization_tasks
      = schedCarolRunning.optimization_tasks :=
  C2_amended_exactly_one_task schedRunning schedCarolRunning "carol" 0
    (by decide) (by decide) (by decide) (by decide) (by decide)

theorem periodic_check_frame (now : Nat) :
    ∀ (l : List (String × Nat)) (st : OptimizationScheduler),
      (OptimizationScheduler.periodic_check now st l).is_running
        = st.is_running ∧
      (OptimizationScheduler.periodic_check now st l).running_optimizations
        = st.running_optimizations ∧
      (OptimizationScheduler.periodic_check now st l).auto_optimize_interval
        = st.auto_optimize_interval := by
  intro l
  induction l with
  | nil => intro st; exact ⟨rfl, rfl, rfl⟩
  | cons p rest ih =>
      intro st
      simp only [OptimizationScheduler.periodic_check]
      by_cases hc : 2 * st.auto_optimize_interval < now - p.2
      · rw [if_pos hc]
        obtain ⟨f1, f2, f3⟩ := schedule_optimization_frame st p.1 "periodic" 1 now
        obtain ⟨g1, g2, g3⟩ := ih (st.schedule_optimization p.1 "periodic" 1 now)
        exact ⟨g1.trans f1, g2.trans f2, g3.trans f3⟩
      · rw [if_neg hc]
        exact ih st

theorem periodic_check_queue_mono (now : Nat) :
    ∀ (l : List (String × Nat)) (st : OptimizationScheduler)
      {t : OptimizationTask}, t ∈ st.optimization_tasks →
      t ∈ (OptimizationScheduler.periodic_check now st l).optimization_tasks := by
  intro l
  induction l with
  | nil => intro st t ht; exact ht
  | cons p rest ih =>
      intro st t ht
      simp only [OptimizationScheduler.periodic_check]
      by_cases hc : 2 * st.auto_optimize_interval < now - p.2
      · rw [if_pos hc]
        exact ih _ (schedule_optimization_queue_mono st p.1 "periodic" 1 now ht)
      · rw [if_neg hc]
        exact ih _ ht

theorem periodic_check_schedules (now : Nat) :
    ∀ (l : List (String × Nat)) (st : OptimizationScheduler) (u : String)
      (last : Nat), (u, last) ∈ l → st.is_running = true →
      u ∉ st.running_optimizations →
      2 * st.auto_optimize_interval < now - last →
      ({ user_id := u, optimization_type := "periodic", priority := 1,
         scheduled_time := none, created_time := now } : OptimizationTask) ∈
        (OptimizationScheduler.periodic_check now st l).optimization_tasks := by
  intro l
  induction l with
  | nil => intro st u last h; simp at h
  | cons p rest ih =>
      intro st u last hmem hrun hnr hold
      simp only [OptimizationScheduler.periodic_check]
      rcases List.mem_cons.mp hmem with he | hm
      · subst he
        rw [if_pos hold]
        apply periodic_check_queue_mono now rest
        rw [schedule_optimization_enqueues st u "periodic" 1 now hrun hnr]
        exact List.mem_append_right _ (List.mem_singleton.mpr rfl)
      · by_cases hc : 2 * st.auto_optimize_interval < now - p.2
        · rw [if_pos hc]
          obtain ⟨f1, f2, f3⟩ := schedule_optimization_frame st p.1 "periodic" 1 now
          apply ih _ u last hm
          · rw [f1]; exact hrun
          · rw [f2]; exact hnr
          · rw [f3]; exact hold
        · rw [if_neg hc]
          exact ih st u last hm hrun hnr hold

/-- Claim C3 amended: on a periodic tick, for every subject with a
recorded entry in `last_optimization_times` whose last successful
completion is older than `2 × auto_optimize_interval` and who is not in
flight, a `periodic` task at priority 1 is enqueued.  Subjects who have
never completed successfully have no entry there and are never considered
by the loop. -/
theorem C3_amended_periodic_only_recorded (s : OptimizationScheduler)
    (now : Nat) (u : String) (last : Nat)
    (hrun : s.is_running = true)
    (hmem : (u, last) ∈ s.last_optimization_times)
    (hold : 2 * s.auto_optimize_interval < now - last)
    (hnr : u ∉ s.running_optimizations) :
    ({ user_id := u, optimization_type := "periodic", priority := 1,
       scheduled_time := none, created_time := now } : OptimizationTask) ∈
      (s.periodic_scheduler_tick now).optimization_tasks := by
  unfold OptimizationScheduler.periodic_scheduler_tick
  simp only [hrun, Bool.not_true, Bool.false_eq_true, if_false]
  exact periodic_check_schedules now s.last_optimization_times s u last
    hmem hrun hnr hold

/-- Witness for the amended C3: `"bob"` last succeeded at t=0, the tick
at t=7201 (interval 3600) enqueues a periodic task for `"bob"`. -/
theorem C3_amended_witness :
    ({ user_id := "bob", optimization_type := "periodic", priority := 1,
       scheduled_time := none, created_time := 7201 } : OptimizationTask) ∈
      (schedWithBobTime.periodic_scheduler_tick 7201).optimization_tasks :=
  C3_amended_periodic_only_recorded schedWithBobTime 7201 "bob" 0
    (by decide) (by decide) (by decide) (by decide)

/-! ### Process lifecycle lemmas -/

theorem wait_for_startup_never_ready (timeout : Nat) (env : Neo4jEnv)
    (hprobe : ∀ t, env.probe t = false) :
    ∀ fuel elapsed, timeout - elapsed ≤ fuel →
      (Neo4jManager.wait_for_startup timeout env elapsed).2 = false := by
  intro fuel
  induction fuel with
  | zero =>
      intro e he
      unfold Neo4jManager.wait_for_startup
      rw [if_neg (by omega)]
  | succ n ih =>
      intro e he
      unfold Neo4jManager.wait_for_startup
      by_cases h : e < timeout
      · rw [if_pos h]
        by_cases hs : env.shutdown_requested e = true
        · rw [if_pos hs]
        · rw [if_neg hs]
          by_cases ha : env.alive e = true
          · simp only [ha, Bool.not_true, Bool.false_eq_true, if_false,
              hprobe e]
            exact ih (e + 2) (by omega)
          · have ha' : (!env.alive e) = true := by
              cases hav : env.alive e
              · rfl
              · exact absurd hav ha
            rw [if_pos ha']
      · rw [if_neg h]

theorem wait_for_startup_elapsed_le (timeout : Nat) (env : Neo4jEnv) :
    ∀ fuel elapsed, timeout - elapsed ≤ fuel → elapsed ≤ timeout + 1 →
      (Neo4jManager.wait_for_startup timeout env elapsed).1
        ≤ timeout + 1 := by
  intro fuel
  induction fuel with
  | zero =>
      intro e he hle
      unfold Neo4jManager.wait_for_startup
      rw [if_neg (by omega)]
      exact hle
  | succ n ih =>
      intro e he hle
      unfold Neo4jManager.wait_for_startup
      by_cases h : e < timeout
      · rw [if_pos h]
        by_cases hs : env.shutdown_requested e = true
        · rw [if_pos hs]; exact hle
        · rw [if_neg hs]
          by_cases ha : env.alive e = true
          · simp only [ha, Bool.not_true, Bool.false_eq_true, if_false]
            by_cases hp : env.probe e = true
            · rw [if_pos hp]; exact hle
            · rw [if_neg hp]
              exact ih (e + 2) (by omega) (by omega)
          · have ha' : (!env.alive e) = true := by
              cases hav : env.alive e
              · rfl
              · exact absurd hav ha
            rw [if_pos ha']; exact hle
      · rw [if_neg h]; exact hle

/-- Claim C4: with embedded mode on, prerequisites present, the port free
and the spawn succeeding, `start()` against a health probe that never
succeeds returns failure within `startup_timeout` plus a bounded slack
(one poll interval overshoot plus the stop grace sleep), and it stops the
spawned process first, leaving the process handle cleared. -/
theorem C4_start_failure_within_timeout (cfg : Neo4jConfig) (env : Neo4jEnv)
    (s : Neo4jManager)
    (hemb : cfg.embedded_enabled = true) (henv : env.env_ok = true)
    (hport : env.port_available = true) (hspawn : env.spawn_ok = true)
    (hprobe : ∀ t, env.probe t = false) :
    (Neo4jManager.start cfg env s).1 = false ∧
    (Neo4jManager.start cfg env s).2.1.process = none ∧
    (Neo4jManager.start cfg env s).2.2 ≤ cfg.startup_timeout + 3 := by
  have hw2 : (Neo4jManager.wait_for_startup cfg.startup_timeout env 0).2
      = false :=
    wait_for_startup_never_ready cfg.startup_timeout env hprobe
      cfg.startup_timeout 0 (by omega)
  have hw1 : (Neo4jManager.wait_for_startup cfg.startup_timeout env 0).1
      ≤ cfg.startup_timeout + 1 :=
    wait_for_startup_elapsed_le cfg.startup_timeout env cfg.startup_timeout 0
      (by omega) (by omega)
  unfold Neo4jManager.start Neo4jManager.stop_process
  simp only [hemb, henv, hport, hspawn, Bool.not_true, Bool.false_eq_true,
    if_false, hw2]
  refine ⟨trivial, trivial, ?_⟩
  show (Neo4jManager.wait_for_startup cfg.startup_timeout env 0).1 + 2
      ≤ cfg.startup_timeout + 3
  omega

/-- Witness for C4 with a concrete 10-second timeout and the
never-healthy environment. -/
theorem C4_witness :
    (Neo4jManager.start ⟨true, 10⟩ neo4jNeverUp Neo4jManager.init).1 = false ∧
    (Neo4jManager.start ⟨true, 10⟩ neo4jNeverUp
        Neo4jManager.init).2.1.process = none ∧
    (Neo4jManager.start ⟨true, 10⟩ neo4jNeverUp Neo4jManager.init).2.2
      ≤ (10 : Nat) + 3 :=
  C4_start_failure_within_timeout ⟨true, 10⟩ neo4jNeverUp Neo4jManager.init
    rfl rfl rfl rfl (fun _ => rfl)

/-! ### Session registry claim theorems -/

/-- Claim C6: `get_session` never returns a record whose age
`now - last_activity` exceeds the timeout; when the stored record is
expired, `get_session` removes it from the registry and returns none, so
an expired session is gone from the map and indistinguishable from an
absent one. -/
theorem C6_get_session_lazy_expiry (st : SessionManager) (sid : String)
    (now : Nat) :
    (∀ rec, (st.get_session sid now).2 = some rec →
        now ≤ rec.last_activity + st.timeout_seconds) ∧
    (∀ rec, alistLookup st.sessions sid = some rec →
        rec.last_activity + st.timeout_seconds < now →
        (st.get_session sid now).2 = none ∧
        alistLookup (st.get_session sid now).1.sessions sid = none) := by
  constructor
  · intro rec hrec
    unfold SessionManager.get_session at hrec
    split at hrec
    · simp at hrec
    · split at hrec
      · simp at hrec
      · next session _ hne =>
          simp only [Option.some.injEq] at hrec
          subst hrec
          unfold SessionInfo.is_expired at hne
          simp at hne
          omega
  · intro rec hl hexp
    have he : rec.is_expired st.timeout_seconds now = true := by
      unfold SessionInfo.is_expired
      exact decide_eq_true hexp
    constructor
    · simp [SessionManager.get_session, hl, he]
    · simp [SessionManager.get_session, hl, he,
        SessionManager.remove_session, alistErase_lookup]

/-- Witness for C6 at the concrete expired session of the C8 scenario. -/
theorem C6_witness :
    (sessionScenario.get_session "s1" 301).2 = none ∧
    alistLookup (sessionScenario.get_session "s1" 301).1.sessions "s1"
      = none :=
  (C6_get_session_lazy_expiry sessionScenario "s1" 301).2
    { session_id := "s1", user_id := "user1", created_at := 0,
      last_activity := 0, request_count := 0, is_active := true }
    (by decide) (by decide)

/-! ### Session registry invariant preservation -/

theorem alistErase_lookup_map_user_id {d : List (String × SessionInfo)}
    {sid s : String} {session : SessionInfo} {w : String}
    (hl : alistLookup d sid = some session)
    (hw : session.user_id ≠ w)
    (hs : (alistLookup d s).map SessionInfo.user_id = some w) :
    (alistLookup (alistErase d sid) s).map SessionInfo.user_id = some w := by
  rw [alistErase_lookup]
  by_cases he : s = sid
  · subst he
    rw [hl] at hs
    simp only [Option.map_some'] at hs
    exact absurd (Option.some.inj hs) hw
  · rw [if_neg he]
    exact hs

theorem Inv_remove (st : SessionManager) (sid : String) (h : st.Inv) :
    ((st.remove_session sid).1).Inv := by
  obtain ⟨N1, N2, H3, H4⟩ := h
  unfold SessionManager.remove_session
  cases hl : alistLookup st.sessions sid with
  | none => exact ⟨N1, N2, H3, H4⟩
  | some session =>
      dsimp only
      have hp : (sid, session) ∈ st.sessions := alistLookup_mem hl
      have h3p := H3 (sid, session) hp
      cases hus : alistLookup st.user_sessions session.user_id with
      | none => rw [hus] at h3p; simp at h3p
      | some ids =>
          dsimp only
          rw [hus] at h3p
          simp only [Option.getD_some] at h3p
          have hq : (session.user_id, ids) ∈ st.user_sessions :=
            alistLookup_mem hus
          obtain ⟨hne, hnd, hmem⟩ := H4 _ hq
          by_cases hids : setDiscard ids sid = []
          · rw [if_pos hids]
            refine ⟨alistErase_keys_nodup sid N1,
              alistErase_keys_nodup session.user_id N2, ?_, ?_⟩
            · intro p hpe
              obtain ⟨hpm, hpne⟩ := mem_alistErase.mp hpe
              rw [alistErase_lookup]
              by_cases hu : p.2.user_id = session.user_id
              · exfalso
                have hin : p.1 ∈ ids := by
                  have := H3 p hpm
                  rw [hu, hus] at this
                  simpa using this
                have : p.1 ∈ setDiscard ids sid :=
                  mem_setDiscard.mpr ⟨hin, hpne⟩
                rw [hids] at this
                simp at this
              · rw [if_neg hu]
                exact H3 p hpm
            · intro q hqe
              obtain ⟨hqm, hqne⟩ := mem_alistErase.mp hqe
              obtain ⟨q1, q2, q3⟩ := H4 q hqm
              refine ⟨q1, q2, ?_⟩
              intro s hs
              exact alistErase_lookup_map_user_id hl
                (by intro he; exact hqne (he ▸ rfl)) (q3 s hs)
          · rw [if_neg hids]
            refine ⟨alistErase_keys_nodup sid N1, alistSet_keys_nodup N2,
              ?_, ?_⟩
            · intro p hpe
              obtain ⟨hpm, hpne⟩ := mem_alistErase.mp hpe
              rw [alistSet_lookup]
              by_cases hu : p.2.user_id = session.user_id
              · rw [if_pos hu]
                simp only [Option.getD_some]
                refine mem_setDiscard.mpr ⟨?_, hpne⟩
                have := H3 p hpm
                rw [hu, hus] at this
                simpa using this
              · rw [if_neg hu]
                exact H3 p hpm
            · intro q hqe
              rcases (mem_alistSet N2).mp hqe with he | ⟨hqm, hqne⟩
              · subst he
                refine ⟨hids, setDiscard_nodup sid hnd, ?_⟩
                intro s hs
                obtain ⟨hsin, hsne⟩ := mem_setDiscard.mp hs
                rw [alistErase_lookup]
                rw [if_neg hsne]
                exact hmem s hsin
              · obtain ⟨q1, q2, q3⟩ := H4 q hqm
                refine ⟨q1, q2, ?_⟩
                intro s hs
                exact alistErase_lookup_map_user_id hl
                  (by intro he; exact hqne (he ▸ rfl)) (q3 s hs)

theorem Inv_insert_new (st : SessionManager) (sid uid : String) (now : Nat)
    (h : st.Inv) (hl : alistLookup st.sessions sid = none) :
    ((st.insert_new_session sid uid now).1).Inv := by
  obtain ⟨N1, N2, H3, H4⟩ := h
  unfold SessionManager.insert_new_session
  dsimp only
  refine ⟨alistSet_keys_nodup N1, alistSet_keys_nodup N2, ?_, ?_⟩
  · intro p hpm
    rcases (mem_alistSet N1).mp hpm with he | ⟨hpold, hpne⟩
    · subst he
      dsimp only
      rw [alistSet_lookup, if_pos rfl]
      simp only [Option.getD_some]
      exact mem_setAdd.mpr (Or.inl rfl)
    · rw [alistSet_lookup]
      by_cases hu : p.2.user_id = uid
      · rw [if_pos hu]
        simp only [Option.getD_some]
        refine mem_setAdd.mpr (Or.inr ?_)
        have h3 := H3 p hpold
        rw [hu] at h3
        exact h3
      · rw [if_neg hu]
        exact H3 p hpold
  · intro q hqm
    rcases (mem_alistSet N2).mp hqm with he | ⟨hqold, hqne⟩
    · subst he
      refine ⟨setAdd_ne_nil _ _, ?_, ?_⟩
      · show (setAdd ((alistLookup st.user_sessions uid).getD []) sid).Nodup
        cases husl : alistLookup st.user_sessions uid with
        | none => simpa [husl] using setAdd_nodup List.nodup_nil
        | some l =>
            have hnd := (H4 (uid, l) (alistLookup_mem husl)).2.1
            simpa [husl] using setAdd_nodup hnd
      · intro s hs
        have hs' : s ∈ setAdd ((alistLookup st.user_sessions uid).getD []) sid :=
          hs
        rcases mem_setAdd.mp hs' with he' | hin
        · subst he'
          rw [alistSet_lookup, if_pos rfl]
          simp
        · cases husl : alistLookup st.user_sessions uid with
          | none => rw [husl] at hin; simp at hin
          | some l =>
              rw [husl] at hin
              simp only [Option.getD_some] at hin
              have q3 := (H4 (uid, l) (alistLookup_mem husl)).2.2 s hin
              have hsne : s ≠ sid := by
                intro he2
                subst he2
                rw [hl] at q3
                simp at q3
              rw [alistSet_lookup, if_neg hsne]
              exact q3
    · obtain ⟨q1, q2, q3⟩ := H4 q hqold
      refine ⟨q1, q2, ?_⟩
      intro s hs
      have hsne : s ≠ sid := by
        intro he2
        subst he2
        have hbad := q3 _ hs
        rw [hl] at hbad
        simp at hbad
      rw [alistSet_lookup, if_neg hsne]
      exact q3 s hs

theorem Inv_touch (st : SessionManager) (sid : String) {rec rec' : SessionInfo}
    (h : st.Inv) (hl : alistLookup st.sessions sid = some rec)
    (hu : rec'.user_id = rec.user_id) :
    SessionManager.Inv { st with sessions := alistSet st.sessions sid rec' } := by
  obtain ⟨N1, N2, H3, H4⟩ := h
  refine ⟨alistSet_keys_nodup N1, N2, ?_, ?_⟩
  · intro p hpm
    rcases (mem_alistSet N1).mp hpm with he | ⟨hpold, hpne⟩
    · subst he
      dsimp only
      rw [hu]
      exact H3 (sid, rec) (alistLookup_mem hl)
    · exact H3 p hpold
  · intro q hqm
    obtain ⟨q1, q2, q3⟩ := H4 q hqm
    refine ⟨q1, q2, ?_⟩
    intro s hs
    rw [alistSet_lookup]
    by_cases he : s = sid
    · subst he
      rw [if_pos rfl]
      have h2 := q3 s hs
      rw [hl] at h2
      simp only [Option.map_some'] at h2 ⊢
      rw [hu]
      exact h2
    · rw [if_neg he]
      exact q3 s hs

theorem remove_session_lookup_self (st : SessionManager) (sid : String) :
    alistLookup ((st.remove_session sid).1).sessions sid = none := by
  unfold SessionManager.remove_session
  cases hl : alistLookup st.sessions sid with
  | none => exact hl
  | some session =>
      dsimp only
      rw [alistErase_lookup, if_pos rfl]

theorem remove_session_preserves_none (st : SessionManager)
    (sid other : String) (hl : alistLookup st.sessions sid = none) :
    alistLookup ((st.remove_session other).1).sessions sid = none := by
  unfold SessionManager.remove_session
  cases ho : alistLookup st.sessions other with
  | none => exact hl
  | some session =>
      dsimp only
      rw [alistErase_lookup]
      by_cases he : sid = other
      · rw [if_pos he]
      · rw [if_neg he]
        exact hl

theorem Inv_cleanup_oldest (st : SessionManager) (h : st.Inv) :
    (st.cleanup_oldest_sessions).Inv := by
  unfold SessionManager.cleanup_oldest_sessions
  cases SessionManager.oldestSession st.sessions with
  | none => exact h
  | some oldest => exact Inv_remove st oldest.session_id h

theorem cleanup_oldest_preserves_none (st : SessionManager) (sid : String)
    (hl : alistLookup st.sessions sid = none) :
    alistLookup (st.cleanup_oldest_sessions).sessions sid = none := by
  unfold SessionManager.cleanup_oldest_sessions
  cases SessionManager.oldestSession st.sessions with
  | none => exact hl
  | some oldest => exact remove_session_preserves_none st sid oldest.session_id hl

theorem Inv_create (st : SessionManager) (sid uid : String) (now : Nat)
    (h : st.Inv) : ((st.create_session sid uid now).1).Inv := by
  unfold SessionManager.create_session
  dsimp only
  by_cases h0 : (alistLookup st.sessions sid).isSome
  · rw [if_pos h0]
    have h1 : ((st.remove_session sid).1).Inv := Inv_remove st sid h
    have hn1 : alistLookup ((st.remove_session sid).1).sessions sid = none :=
      remove_session_lookup_self st sid
    by_cases h2 : ((st.remove_session sid).1).max_sessions
        ≤ ((st.remove_session sid).1).sessions.length
    · rw [if_pos h2]
      exact Inv_insert_new _ sid uid now (Inv_cleanup_oldest _ h1)
        (cleanup_oldest_preserves_none _ sid hn1)
    · rw [if_neg h2]
      exact Inv_insert_new _ sid uid now h1 hn1
  · rw [if_neg h0]
    have hn : alistLookup st.sessions sid = none :=
      Option.not_isSome_iff_eq_none.mp h0
    by_cases h2 : st.max_sessions ≤ st.sessions.length
    · rw [if_pos h2]
      exact Inv_insert_new _ sid uid now (Inv_cleanup_oldest _ h)
        (cleanup_oldest_preserves_none _ sid hn)
    · rw [if_neg h2]
      exact Inv_insert_new _ sid uid now h hn

theorem Inv_get (st : SessionManager) (sid : String) (now : Nat)
    (h : st.Inv) : ((st.get_session sid now).1).Inv := by
  unfold SessionManager.get_session
  cases hl : alistLookup st.sessions sid with
  | none => exact h
  | some session =>
      dsimp only
      by_cases he : session.is_expired st.timeout_seconds now = true
      · rw [if_pos he]
        exact Inv_remove st sid h
      · rw [if_neg he]
        exact h

theorem get_session_some_eq (st : SessionManager) (sid : String) (now : Nat)
    {rec : SessionInfo} (h : (st.get_session sid now).2 = some rec) :
    (st.get_session sid now).1 = st ∧
    alistLookup st.sessions sid = some rec := by
  unfold SessionManager.get_session at h ⊢
  cases hl : alistLookup st.sessions sid with
  | none => rw [hl] at h; simp at h
  | some session =>
      rw [hl] at h
      dsimp only at h
      by_cases he : session.is_expired st.timeout_seconds now = true
      · rw [if_pos he] at h
        simp at h
      · rw [if_neg he] at h
        simp only [Option.some.injEq] at h
        subst h
        dsimp only
        rw [if_neg he]
        exact ⟨rfl, rfl⟩

theorem Inv_update (st : SessionManager) (sid : String) (now : Nat)
    (h : st.Inv) : ((st.update_session_activity sid now).1).Inv := by
  unfold SessionManager.update_session_activity
  dsimp only
  cases hr : (st.get_session sid now).2 with
  | none =>
      dsimp only
      exact Inv_get st sid now h
  | some session =>
      dsimp only
      obtain ⟨he, hl⟩ := get_session_some_eq st sid now hr
      rw [he]
      exact Inv_touch st sid h hl rfl

theorem Inv_ensure (st : SessionManager) (sid uid : String) (now : Nat)
    (h : st.Inv) : ((st.ensure_session sid uid now).1).Inv := by
  unfold SessionManager.ensure_session
  dsimp only
  cases hr : (st.get_session sid now).2 with
  | none =>
      dsimp only
      exact Inv_create _ sid uid now (Inv_get st sid now h)
  | some session =>
      dsimp only
      obtain ⟨he, hl⟩ := get_session_some_eq st sid now hr
      rw [he]
      exact Inv_touch st sid h hl rfl

theorem Inv_remove_fold (l : List String) :
    ∀ st : SessionManager, st.Inv →
      (l.foldl (fun s sid => (s.remove_session sid).1) st).Inv := by
  induction l with
  | nil => intro st h; exact h
  | cons x rest ih =>
      intro st h
      exact ih _ (Inv_remove st x h)

theorem Inv_cleanup_expired (st : SessionManager) (now : Nat) (h : st.Inv) :
    (st.cleanup_expired_sessions now).Inv := by
  unfold SessionManager.cleanup_expired_sessions
  exact Inv_remove_fold _ st h

/-- Claim C10: every session registry operation — `create_session`,
`ensure_session`, `get_session`, `update_session_activity`,
`remove_session`, the expiry sweep, and the capacity eviction — preserves
the two-way index invariant: session keys are unique, a session id is a
key of `sessions` iff it is registered in `user_sessions` under that
record's `user_id`, and `user_sessions` never maps a user to an empty
set. -/
theorem C10_registry_invariant_preserved (st : SessionManager)
    (sid uid : String) (now : Nat) (h : st.Inv) :
    ((st.create_session sid uid now).1).Inv ∧
    ((st.ensure_session sid uid now).1).Inv ∧
    ((st.get_session sid now).1).Inv ∧
    ((st.update_session_activity sid now).1).Inv ∧
    ((st.remove_session sid).1).Inv ∧
    (st.cleanup_expired_sessions now).Inv ∧
    (st.cleanup_oldest_sessions).Inv :=
  ⟨Inv_create st sid uid now h, Inv_ensure st sid uid now h,
   Inv_get st sid now h, Inv_update st sid now h, Inv_remove st sid h,
   Inv_cleanup_expired st now h, Inv_cleanup_oldest st h⟩

/-- Witness for C10 at the concrete one-session registry. -/
theorem C10_witness :
    ((sessionScenario.create_session "s2" "user2" 5).1).Inv ∧
    ((sessionScenario.ensure_session "s2" "user2" 5).1).Inv ∧
    ((sessionScenario.get_session "s2" 5).1).Inv ∧
    ((sessionScenario.update_session_activity "s2" 5).1).Inv ∧
    ((sessionScenario.remove_session "s2").1).Inv ∧
    (sessionScenario.cleanup_expired_sessions 5).Inv ∧
    (sessionScenario.cleanup_oldest_sessions).Inv :=
  C10_registry_invariant_preserved sessionScenario "s2" "user2" 5 (by decide)
